import Mathlib

/-!
Verification development for the pyfolio_cpp core: the performance
analytics engine (point metrics, tail risk, rolling metrics), the
commission and market-impact models, the order execution engine with
its cash-buffer constraint, the TimeSeries container contract, and the
Python package fallback (stub) layer.

Real-valued quantities of the C++ code are embedded as rationals (ℚ).
Where the code applies a real-valued square root or real-exponent power,
the embedding takes the function as an explicit parameter (sqrt, rpow),
since those operations have no exact rational counterpart; every theorem
that depends on their behaviour states the needed property of the
parameter as a hypothesis.
-/

namespace Pyfolio

/-- Error taxonomy of the spec: configuration errors, mismatched-length
series errors, missing price data, and order-level insufficient funds. -/
inductive PfError where
  | InvalidConfiguration
  | DimensionMismatch
  | MissingPriceData
  | InsufficientFunds
  deriving DecidableEq, Repr

/-! ## Basic statistics over a return series -/

/-- Modelled from the spec: arithmetic mean of a return series. -/
def mean (r : List ℚ) : ℚ := r.sum / r.length

/-- Modelled from the spec: population variance of a return series. -/
def variance (r : List ℚ) : ℚ :=
  ((r.map fun x => (x - mean r) ^ 2).sum) / r.length

/-- Modelled from the spec: standard deviation, via the square-root
parameter. -/
def stdev (sqrt : ℚ → ℚ) (r : List ℚ) : ℚ := sqrt (variance r)

/-- Modelled from the spec: covariance of two equal-length windows
(used by rolling beta: cov(r,benchmark)/var(benchmark)). -/
def covariance (xs ys : List ℚ) : ℚ :=
  (((xs.zip ys).map fun p => (p.1 - mean xs) * (p.2 - mean ys)).sum) / xs.length

/-- Documented sentinel value returned by every ratio metric whose
denominator is zero (zero-variance Sharpe and Sortino, zero-drawdown
Calmar); the spec requires one consistent sentinel, chosen here as 0. -/
def sentinel : ℚ := 0

/-! ## Rolling windows -/

/-- Modelled from the spec: the list of all length-`w` contiguous windows
of `xs`, in order of their starting index. -/
def windows {α : Type} (w : ℕ) : List α → List (List α)
  | [] => []
  | x :: t => if w ≤ t.length + 1 then (x :: t).take w :: windows w t else []

/-! ## Rolling metrics

The spec: `rolling_sharpe`, `rolling_volatility`, `rolling_beta` over
window `w` produce one point per window, output length `n - w + 1`;
`rolling_beta` fails with `DimensionMismatch` if the two series have
different lengths, checked at the call site. -/

/-- Modelled from the spec: annualised Sharpe ratio of one window,
`(mean(r) - risk_free/252) / stdev(r) * sqrt(252)`, resolving to the
sentinel when the standard deviation is zero. -/
def sharpePoint (sqrt : ℚ → ℚ) (riskFree : ℚ) (r : List ℚ) : ℚ :=
  if stdev sqrt r = 0 then sentinel
  else (mean r - riskFree / 252) / stdev sqrt r * sqrt 252

/-- Modelled from the spec: annualised volatility of one window,
`stdev(r) * sqrt(252)`. -/
def volatilityPoint (sqrt : ℚ → ℚ) (r : List ℚ) : ℚ :=
  stdev sqrt r * sqrt 252

/-- Modelled from the spec: beta of one window of paired observations,
`cov(r,benchmark)/var(benchmark)`. -/
def betaPoint (win : List (ℚ × ℚ)) : ℚ :=
  covariance (win.map Prod.fst) (win.map Prod.snd) /
    variance (win.map Prod.snd)

/-- Modelled from the spec: rolling Sharpe ratio over window `w`. -/
def rolling_sharpe (sqrt : ℚ → ℚ) (r : List ℚ) (w : ℕ) (riskFree : ℚ) :
    List ℚ :=
  (windows w r).map (sharpePoint sqrt riskFree)

/-- Modelled from the spec: rolling annualised volatility over window `w`. -/
def rolling_volatility (sqrt : ℚ → ℚ) (r : List ℚ) (w : ℕ) : List ℚ :=
  (windows w r).map (volatilityPoint sqrt)

/-- Modelled from the spec: rolling beta of `r` against `benchmark` over
window `w`; fails with `DimensionMismatch` at the call site when the two
series have different lengths. -/
def rolling_beta (r benchmark : List ℚ) (w : ℕ) : Except PfError (List ℚ) :=
  if r.length ≠ benchmark.length then .error .DimensionMismatch
  else .ok ((windows w (r.zip benchmark)).map betaPoint)

/-! ## Tail risk -/

/-- Modelled from the spec: the empirical return distribution as a list
sorted into ascending order. -/
def sortedReturns (r : List ℚ) : List ℚ := List.insertionSort (· ≤ ·) r

/-- Modelled from the spec: the rank `⌈α·n⌉` of the order statistic
picked by `VaR(r, α)`. -/
def varRank (alpha : ℚ) (n : ℕ) : ℕ := (Int.ceil (alpha * n)).toNat

/-- Modelled from the spec: `VaR(r, α)` is the α-quantile of the
empirical return distribution, the order statistic at rank `⌈α·n⌉`
of the sorted returns. -/
def calculate_var (r : List ℚ) (alpha : ℚ) : ℚ :=
  (sortedReturns r).getD (varRank alpha r.length - 1) 0

/-- Modelled from the spec: a return series is non-degenerate when it
holds at least two distinct values. -/
def nondegenerate (r : List ℚ) : Bool :=
  match r with
  | [] => false
  | x :: t => t.any fun y => decide (y ≠ x)

/-! ## Drawdown and point metrics -/

/-- Modelled from the spec: the portfolio-value path reconstructed from
a return series, `value_t = Π_{i ≤ t} (1 + r_i)` starting from a unit
initial value (the `scanl` keeps the initial value as the first sample). -/
def portfolioValues (r : List ℚ) : List ℚ :=
  List.scanl (· * ·) 1 (r.map fun x => 1 + x)

/-- Modelled from the spec: the running peak `peak_t = max_{i ≤ t} value_i`
of a value path. -/
def runningPeaks : List ℚ → List ℚ
  | [] => []
  | v :: t => List.scanl max v t

/-- Modelled from the spec: the drawdown path `value_t / running_peak_t - 1`. -/
def drawdowns (vs : List ℚ) : List ℚ :=
  List.zipWith (fun v p => v / p - 1) vs (runningPeaks vs)

/-- Minimum of a list of rationals, 0 for the empty list (the empty case
never arises for drawdown paths, whose value list is never empty). -/
def listMin : List ℚ → ℚ
  | [] => 0
  | x :: t => t.foldl min x

/-- Modelled from the spec: the signed maximum drawdown
`min_t (value_t / running_peak_t - 1)`, always ≤ 0. -/
def maxDrawdownSigned (r : List ℚ) : ℚ :=
  listMin (drawdowns (portfolioValues r))

/-- Modelled from the spec: the reported maximum drawdown, the
non-negative magnitude of the signed maximum drawdown. -/
def max_drawdown (r : List ℚ) : ℚ := |maxDrawdownSigned r|

/-- Modelled from the spec: `total_return = Π(1+r_i) - 1`. -/
def total_return (r : List ℚ) : ℚ := (r.map fun x => 1 + x).prod - 1

/-- Modelled from the spec:
`annual_return = (1+total_return)^(252/n) - 1`, via the real-power
parameter `rpow`. -/
def annual_return (rpow : ℚ → ℚ → ℚ) (r : List ℚ) : ℚ :=
  rpow (1 + total_return r) (252 / r.length) - 1

/-- Modelled from the spec: `annual_volatility = stdev(r) * sqrt(252)`. -/
def annual_volatility (sqrt : ℚ → ℚ) (r : List ℚ) : ℚ :=
  stdev sqrt r * sqrt 252

/-- Modelled from the spec: downside deviation, the standard deviation
of negative returns only, zero-filled for non-negative periods. -/
def downsideDev (sqrt : ℚ → ℚ) (r : List ℚ) : ℚ :=
  sqrt (((r.map fun x => (min x 0) ^ 2).sum) / r.length)

/-- Modelled from the spec: Sortino ratio — Sharpe numerator over the
downside deviation, resolving to the sentinel when that is zero. -/
def sortino_ratio (sqrt : ℚ → ℚ) (riskFree : ℚ) (r : List ℚ) : ℚ :=
  if downsideDev sqrt r = 0 then sentinel
  else (mean r - riskFree / 252) / downsideDev sqrt r * sqrt 252

/-- Modelled from the spec: `calmar_ratio = annual_return / |max_drawdown|`,
resolving to the sentinel when the drawdown magnitude is zero. -/
def calmar_ratio (rpow : ℚ → ℚ → ℚ) (r : List ℚ) : ℚ :=
  if max_drawdown r = 0 then sentinel
  else annual_return rpow r / max_drawdown r

/-- Result record of the point metrics of the analytics engine. -/
structure PerformanceMetrics where
  total_return : ℚ
  annual_return : ℚ
  annual_volatility : ℚ
  sharpe_ratio : ℚ
  sortino_ratio : ℚ
  max_drawdown : ℚ
  calmar_ratio : ℚ
  deriving DecidableEq, Repr

/-- Modelled from the spec: the point metrics of the analytics engine over a
finished return series, all total functions — undefined numeric results
resolve to the sentinel, never an exception. -/
def calculate_performance_metrics (sqrt : ℚ → ℚ) (rpow : ℚ → ℚ → ℚ)
    (riskFree : ℚ) (r : List ℚ) : PerformanceMetrics where
  total_return := total_return r
  annual_return := annual_return rpow r
  annual_volatility := annual_volatility sqrt r
  sharpe_ratio := sharpePoint sqrt riskFree r
  sortino_ratio := sortino_ratio sqrt riskFree r
  max_drawdown := max_drawdown r
  calmar_ratio := calmar_ratio rpow r

/-! ## Commission models -/

/-- Commission model variants of the spec. -/
inductive CommissionType where
  | Fixed
  | PerShare
  | Percentage
  | Tiered
  deriving DecidableEq, Repr

/-- Commission specification: variant tag, rate (flat fee, per-share fee
or percentage rate depending on the variant), and brackets for the
Tiered variant as (upper-bound, rate) pairs. -/
structure CommissionStructure where
  ctype : CommissionType
  rate : ℚ
  tiers : List (ℚ × ℚ)
  deriving DecidableEq, Repr

/-- Modelled from the spec: Tiered commission rate lookup — the rate of
the first bracket whose upper bound covers the trade value, 0 past the
last bracket. -/
def tieredRate : List (ℚ × ℚ) → ℚ → ℚ
  | [], _ => 0
  | (bound, rate) :: rest, v => if v ≤ bound then rate else tieredRate rest v

/-- Modelled from the spec: `calculate(trade_value, quantity) → cost`:
Fixed is a flat fee per trade, PerShare is fee × |quantity|, Percentage
is rate × trade_value, Tiered applies the bracket rate to the trade
value. -/
def calculate_commission (c : CommissionStructure) (trade_value quantity : ℚ) :
    ℚ :=
  match c.ctype with
  | .Fixed => c.rate
  | .PerShare => c.rate * |quantity|
  | .Percentage => c.rate * trade_value
  | .Tiered => tieredRate c.tiers trade_value * trade_value

/-! ## Market impact -/

/-- Market impact model variants of the spec (`NoImpact` stands for the
`None` variant of the spec). -/
inductive ImpactModel where
  | NoImpact
  | Linear
  | SquareRoot
  deriving DecidableEq, Repr

/-- Market impact specification: model tag and impact coefficient. -/
structure MarketImpactConfig where
  model : ImpactModel
  impact_coefficient : ℚ
  deriving DecidableEq, Repr

/-- Modelled from the spec: the impact fraction —
None: 0; Linear: `coeff * trade_size/daily_volume`;
SquareRoot: `coeff * volatility * sqrt(trade_size/daily_volume)`. -/
def calculate_impact (sqrt : ℚ → ℚ) (cfg : MarketImpactConfig)
    (trade_size daily_volume volatility : ℚ) : ℚ :=
  match cfg.model with
  | .NoImpact => 0
  | .Linear => cfg.impact_coefficient * trade_size / daily_volume
  | .SquareRoot =>
      cfg.impact_coefficient * volatility * sqrt (trade_size / daily_volume)

/-- Modelled from the spec: the sign convention — a buy pays a positive
price increment, a sell of the same magnitude receives the negated
decrement (mirror symmetry). -/
def signedImpact (f : ℚ) (isBuy : Bool) : ℚ := if isBuy then f else -f

/-- Modelled from the spec: the impact fraction applied multiplicatively
to the execution price in the direction that disadvantages the trader. -/
def impactedPrice (price f : ℚ) (isBuy : Bool) : ℚ :=
  price * (1 + signedImpact f isBuy)

/-! ## Portfolio ledger and order execution -/

/-- Position state: symbol, signed quantity, volume-weighted average cost. -/
structure Position where
  symbol : String
  quantity : ℚ
  average_cost : ℚ
  deriving DecidableEq, Repr

/-- Portfolio ledger: cash balance plus per-symbol position states. -/
structure Ledger where
  cash : ℚ
  positions : List Position
  deriving DecidableEq, Repr

/-- Execution-relevant configuration of a backtest run. -/
structure ExecConfig where
  initial_capital : ℚ
  cash_buffer : ℚ
  enablePartialFills : Bool
  commission : CommissionStructure
  impact : MarketImpactConfig
  deriving DecidableEq, Repr

/-- Target order: symbol, signed desired quantity delta, and the market
data the engine looks up for the trade date (price, daily volume,
volatility). -/
structure Order where
  symbol : String
  quantity : ℚ
  price : ℚ
  daily_volume : ℚ
  volatility : ℚ
  deriving DecidableEq, Repr

/-- Fill record: immutable once created, appended to the trade history. -/
structure Fill where
  symbol : String
  quantity : ℚ
  execution_price : ℚ
  commission : ℚ
  impact_cost : ℚ
  deriving DecidableEq, Repr

/-- Impact fraction the execution engine computes for an order. -/
def impactFractionOf (sqrt : ℚ → ℚ) (cfg : ExecConfig) (o : Order) : ℚ :=
  calculate_impact sqrt cfg.impact |o.quantity| o.daily_volume o.volatility

/-- Execution price of an order: market price adjusted by the signed
impact fraction (buy iff the quantity delta is positive). -/
def execPriceOf (sqrt : ℚ → ℚ) (cfg : ExecConfig) (o : Order) : ℚ :=
  impactedPrice o.price (impactFractionOf sqrt cfg o) (decide (0 < o.quantity))

/-- Commission the engine charges for an order, on the gross trade value. -/
def commissionOf (cfg : ExecConfig) (o : Order) : ℚ :=
  calculate_commission cfg.commission |o.quantity * o.price| o.quantity

/-- Cash balance the ledger would hold after fully executing the order:
cash minus signed execution value minus commission. -/
def cashAfterTrade (sqrt : ℚ → ℚ) (cfg : ExecConfig) (led : Ledger)
    (o : Order) : ℚ :=
  led.cash - o.quantity * execPriceOf sqrt cfg o - commissionOf cfg o

/-- Modelled from the spec: position update of `apply_fill` — adjusts the
quantity of the symbol, recomputes the volume-weighted average cost on buys,
removes the entry when the quantity reaches zero, inserts a new entry
for a first fill. -/
def updatePositions : List Position → String → ℚ → ℚ → List Position
  | [], sym, q, px => [⟨sym, q, px⟩]
  | p :: rest, sym, q, px =>
    if p.symbol = sym then
      let newQty := p.quantity + q
      if newQty = 0 then rest
      else if 0 < q then
        ⟨sym, newQty, (p.quantity * p.average_cost + q * px) / newQty⟩ :: rest
      else ⟨sym, newQty, p.average_cost⟩ :: rest
    else p :: updatePositions rest sym q px

/-- Modelled from the spec: order execution (§4.4) — compute execution
price, commission and impact cost; check that the cash after the trade
stays at or above `initial_capital * cash_buffer`; execute fully when it
does; otherwise scale the order down (partial fill, modelled as
proportional scaling of the quantity to the available headroom) when
partial fills are enabled; otherwise fail with `InsufficientFunds`,
leaving the ledger untouched. -/
def execute_order (sqrt : ℚ → ℚ) (cfg : ExecConfig) (led : Ledger)
    (o : Order) : Ledger × Except PfError Fill :=
  let f := impactFractionOf sqrt cfg o
  let px := execPriceOf sqrt cfg o
  let comm := commissionOf cfg o
  let cashAfter := cashAfterTrade sqrt cfg led o
  if cfg.initial_capital * cfg.cash_buffer ≤ cashAfter then
    (⟨cashAfter, updatePositions led.positions o.symbol o.quantity px⟩,
     .ok ⟨o.symbol, o.quantity, px, comm, |o.quantity| * o.price * f⟩)
  else if cfg.enablePartialFills then
    let avail := led.cash - cfg.initial_capital * cfg.cash_buffer
    let required := o.quantity * px + comm
    let q := if required ≤ 0 then 0 else o.quantity * (avail / required)
    let comm2 := calculate_commission cfg.commission |q * o.price| q
    (⟨led.cash - q * px - comm2, updatePositions led.positions o.symbol q px⟩,
     .ok ⟨o.symbol, q, px, comm2, |q| * o.price * f⟩)
  else
    (led, .error .InsufficientFunds)

/-- Modelled from the spec: processing the order list of one date in sequence —
a failed order is recorded and skipped, the run continues with the
remaining orders against the unchanged ledger; it never aborts. -/
def run_orders (sqrt : ℚ → ℚ) (cfg : ExecConfig) (led : Ledger) :
    List Order → Ledger × List Fill × List PfError
  | [] => (led, [], [])
  | o :: rest =>
    match execute_order sqrt cfg led o with
    | (led2, .ok fl) =>
      let out := run_orders sqrt cfg led2 rest
      (out.1, fl :: out.2.1, out.2.2)
    | (led2, .error e) =>
      let out := run_orders sqrt cfg led2 rest
      (out.1, out.2.1, e :: out.2.2)

/-! ## TimeSeries container contract -/

/-- Modelled from the spec: the time-indexed numeric container holding
paired (timestamp, value) arrays and a name. -/
structure TimeSeries where
  timestamps : List ℚ
  values : List ℚ
  seriesName : String
  deriving DecidableEq, Repr

/-- Modelled from the spec: `TimeSeries.create(timestamps, values, name)`
fails with `DimensionMismatch` when the two arrays differ in length. -/
def TimeSeries.create (ts vs : List ℚ) (nm : String) :
    Except PfError TimeSeries :=
  if ts.length ≠ vs.length then .error .DimensionMismatch
  else .ok ⟨ts, vs, nm⟩

/-- Number of samples held by the series. -/
def TimeSeries.size (t : TimeSeries) : ℕ := t.values.length

/-- Whether the series holds no samples. -/
def TimeSeries.empty (t : TimeSeries) : Bool := t.values.isEmpty

/-- Name of the series. -/
def TimeSeries.name (t : TimeSeries) : String := t.seriesName

/-- Conversion back to the pair of host arrays. -/
def TimeSeries.to_numpy (t : TimeSeries) : List ℚ × List ℚ :=
  (t.timestamps, t.values)

/-! ## Python package fallback layer

Embeds the `except ImportError` branch of `src/python/__init__.py`: when
the compiled extension is missing, the package still imports, binding
every public name to a stub whose invocation raises `RuntimeError`. -/

/-- Message of the RuntimeError raised by every stub. -/
def stubMessage : String :=
  "PyFolio C++ not compiled. Please run \x27pip install -e .\x27 to build."

/-- Kind of object a fallback export is bound to: the StubClass, the
stub function, or a StubModule instance. -/
inductive FallbackExport where
  | cls
  | fn
  | moduleExport
  deriving DecidableEq, Repr

/-- Public names of the package (the `__all__` list of the branch where
the compiled extension loads). -/
def publicNames : List String :=
  ["DateTime", "TimeSeries", "PriceTimeSeries", "PerformanceMetrics",
   "Position", "analytics", "backtesting", "ml", "visualization",
   "streaming", "version", "create_sample_data", "has_gpu_support"]

/-- Name bindings of the fallback branch of `__init__.py`: the five core
classes are bound to StubClass, the three utility functions to
stub_function, the five submodules to StubModule instances; nothing else
is bound. -/
def fallbackBinding (n : String) : Option FallbackExport :=
  if n ∈ ["DateTime", "TimeSeries", "PriceTimeSeries", "PerformanceMetrics",
          "Position"] then some .cls
  else if n ∈ ["version", "create_sample_data", "has_gpu_support"] then
    some .fn
  else if n ∈ ["analytics", "backtesting", "ml", "visualization",
               "streaming"] then some .moduleExport
  else none

/-- Invoking a fallback export: calling StubClass runs its `__init__`,
which raises RuntimeError; calling stub_function raises RuntimeError; a
StubModule instance is not callable (`none`). -/
def invokeExport : FallbackExport → Option (Except String Unit)
  | .cls => some (.error stubMessage)
  | .fn => some (.error stubMessage)
  | .moduleExport => none

/-- Attribute access on a fallback export: the `__getattr__` of StubModule
returns stub_function for every attribute name; the other stubs define
no attributes. -/
def exportAttr (e : FallbackExport) (_attr : String) : Option FallbackExport :=
  match e with
  | .moduleExport => some .fn
  | _ => none

/-! ## Helper lemmas -/

theorem windows_nil_of_lt {α : Type} (w : ℕ) (xs : List α) (h : xs.length < w) :
    windows w xs = [] := by
  cases xs with
  | nil => rfl
  | cons x t =>
    simp only [windows]
    rw [if_neg]
    simp only [List.length_cons] at h
    omega

theorem windows_length {α : Type} (w : ℕ) (xs : List α) (h1 : 1 ≤ w)
    (h2 : w ≤ xs.length) : (windows w xs).length = xs.length - w + 1 := by
  induction xs with
  | nil => simp at h2; omega
  | cons x t ih =>
    simp only [windows]
    rw [if_pos (by simpa using h2)]
    by_cases ht : w ≤ t.length
    · simp only [List.length_cons, ih ht]
      omega
    · rw [windows_nil_of_lt w t (by omega)]
      simp only [List.length_cons, List.length_nil]
      omega

theorem foldl_min_le (t : List ℚ) (x : ℚ) : t.foldl min x ≤ x := by
  induction t generalizing x with
  | nil => exact le_refl x
  | cons y s ih => exact le_trans (ih (min x y)) (min_le_left x y)

theorem listMin_cons_le (x : ℚ) (t : List ℚ) : listMin (x :: t) ≤ x :=
  foldl_min_le t x

theorem scanl_mul_one_replicate :
    ∀ n : ℕ, List.scanl (· * ·) (1 : ℚ) (List.replicate n 1) =
      List.replicate (n + 1) 1
  | 0 => rfl
  | n + 1 => by
    rw [List.replicate_succ, List.scanl_cons, mul_one,
      scanl_mul_one_replicate n]
    simp [List.replicate_succ]

theorem scanl_max_one_replicate :
    ∀ n : ℕ, List.scanl max (1 : ℚ) (List.replicate n 1) =
      List.replicate (n + 1) 1
  | 0 => rfl
  | n + 1 => by
    rw [List.replicate_succ, List.scanl_cons, max_self,
      scanl_max_one_replicate n]
    simp [List.replicate_succ]

theorem foldl_min_zero_replicate :
    ∀ n : ℕ, (List.replicate n (0 : ℚ)).foldl min 0 = 0
  | 0 => rfl
  | n + 1 => by
    rw [List.replicate_succ, List.foldl_cons, min_self,
      foldl_min_zero_replicate n]

theorem sortedReturns_sorted (r : List ℚ) :
    (sortedReturns r).Sorted (· ≤ ·) :=
  List.sorted_insertionSort _ r

theorem sortedReturns_length (r : List ℚ) :
    (sortedReturns r).length = r.length :=
  (List.perm_insertionSort _ r).length_eq

theorem countP_sortedReturns (r : List ℚ) (p : ℚ → Bool) :
    (sortedReturns r).countP p = r.countP p :=
  (List.perm_insertionSort _ r).countP_eq p

theorem sorted_getD_mono (l : List ℚ) (hs : l.Sorted (· ≤ ·)) (i j : ℕ)
    (hij : i ≤ j) (hj : j < l.length) : l.getD i 0 ≤ l.getD j 0 := by
  have hi : i < l.length := lt_of_le_of_lt hij hj
  rw [List.getD_eq_getElem l 0 hi, List.getD_eq_getElem l 0 hj]
  have h := @List.Sorted.rel_get_of_le ℚ (· ≤ ·) _ l hs ⟨i, hi⟩ ⟨j, hj⟩
    (Fin.mk_le_mk.mpr hij)
  simpa using h

theorem sorted_getD_nonpos :
    ∀ l : List ℚ, l.Sorted (· ≤ ·) → ∀ k : ℕ, k < l.length →
      k + 1 ≤ l.countP (fun a => decide (a ≤ 0)) → l.getD k 0 ≤ 0 := by
  intro l
  induction l with
  | nil => intro _ k hk; simp at hk
  | cons x t ih =>
    intro hs k hk hc
    rw [List.countP_cons] at hc
    cases k with
    | zero =>
      rw [List.getD_cons_zero]
      by_contra hx
      push_neg at hx
      have hct : t.countP (fun a => decide (a ≤ 0)) = 0 := by
        rw [List.countP_eq_zero]
        intro a ha
        have hxa : x ≤ a := (List.sorted_cons.mp hs).1 a ha
        simp only [decide_eq_true_eq, not_le]
        linarith
      have hxf : ¬ (x ≤ 0) := not_le.mpr hx
      rw [hct] at hc
      simp [hxf] at hc
    | succ k2 =>
      rw [List.getD_cons_succ]
      refine ih (List.sorted_cons.mp hs).2 k2 ?_ ?_
      · simpa using Nat.lt_of_succ_lt_succ (by simpa using hk)
      · have hif : (if decide (x ≤ 0) = true then 1 else 0) ≤ 1 := by
          split <;> omega
        omega

theorem varRank_mono (a1 a2 : ℚ) (n : ℕ) (h : a1 ≤ a2) :
    varRank a1 n ≤ varRank a2 n := by
  unfold varRank
  exact Int.toNat_le_toNat
    (Int.ceil_le_ceil (mul_le_mul_of_nonneg_right h (Nat.cast_nonneg n)))

theorem varRank_le (a : ℚ) (n : ℕ) (ha : a ≤ 1) : varRank a n ≤ n := by
  unfold varRank
  have h : Int.ceil (a * n) ≤ (n : ℤ) := by
    apply Int.ceil_le.mpr
    push_cast
    nlinarith [show (0 : ℚ) ≤ (n : ℚ) from Nat.cast_nonneg n]
  omega

theorem varRank_pos (a : ℚ) (n : ℕ) (ha : 0 < a) (hn : 0 < n) :
    1 ≤ varRank a n := by
  unfold varRank
  have h : (0 : ℤ) < Int.ceil (a * n) :=
    Int.ceil_pos.mpr (mul_pos ha (by exact_mod_cast hn))
  omega

/-! ## Claim theorems -/

/-- C1: for every return series of length n and every window w with
1 ≤ w ≤ n, each of rolling_sharpe, rolling_volatility and rolling_beta
(on an equal-length benchmark) returns a series of length exactly
n - w + 1. -/
theorem C1_rolling_output_length (sqrt : ℚ → ℚ) (r b : List ℚ) (w : ℕ)
    (riskFree : ℚ) (h1 : 1 ≤ w) (h2 : w ≤ r.length)
    (hb : b.length = r.length) :
    (rolling_sharpe sqrt r w riskFree).length = r.length - w + 1 ∧
    (rolling_volatility sqrt r w).length = r.length - w + 1 ∧
    ∃ out, rolling_beta r b w = .ok out ∧ out.length = r.length - w + 1 := by
  refine ⟨?_, ?_, ?_⟩
  · simp [rolling_sharpe, windows_length w r h1 h2]
  · simp [rolling_volatility, windows_length w r h1 h2]
  · refine ⟨(windows w (r.zip b)).map betaPoint, ?_, ?_⟩
    · simp [rolling_beta, hb]
    · have hz : (r.zip b).length = r.length := by
        simp [List.length_zip, hb]
      simp [windows_length w (r.zip b) h1 (by omega), hz]

/-- Witness for C1 at a concrete input: series of length 3, benchmark of
length 3, window 2 — all outputs have length 2. -/
theorem C1_rolling_output_length_witness :
    (rolling_sharpe id [1, 2, 3] 2 0).length = 3 - 2 + 1 ∧
    (rolling_volatility id [1, 2, 3] 2).length = 3 - 2 + 1 ∧
    ∃ out, rolling_beta [1, 2, 3] [4, 5, 6] 2 = .ok out ∧
      out.length = 3 - 2 + 1 := by
  have h := C1_rolling_output_length id [1, 2, 3] [4, 5, 6] 2 0
    (by decide) (by decide) (by decide)
  simpa using h

/-- C5: a Percentage commission is rate × trade_value in general, and
with rate 0.001 on trade_value 10000 and quantity 100 it is exactly 10. -/
theorem C5_percentage_commission :
    (∀ (rate tv q : ℚ) (tiers : List (ℚ × ℚ)),
      calculate_commission ⟨.Percentage, rate, tiers⟩ tv q = rate * tv) ∧
    calculate_commission ⟨.Percentage, 1 / 1000, []⟩ 10000 100 = 10 := by
  refine ⟨fun rate tv q tiers => rfl, ?_⟩
  show (1 : ℚ) / 1000 * 10000 = 10
  norm_num

/-- C4: two-series operations reject mismatched-length inputs at the
call site with DimensionMismatch and produce no result — rolling_beta
on series of different lengths, and TimeSeries.create on arrays of
different lengths. -/
theorem C4_dimension_mismatch (r b ts vs : List ℚ) (w : ℕ) (nm : String)
    (hrb : r.length ≠ b.length) (htv : ts.length ≠ vs.length) :
    rolling_beta r b w = .error .DimensionMismatch ∧
    TimeSeries.create ts vs nm = .error .DimensionMismatch := by
  constructor
  · simp [rolling_beta, hrb]
  · simp [TimeSeries.create, htv]

/-- Witness for C4 at concrete mismatched inputs. -/
theorem C4_dimension_mismatch_witness :
    rolling_beta [1, 2] [1] 1 = .error .DimensionMismatch ∧
    TimeSeries.create [1, 2] [1, 2, 3] "invalid" = .error .DimensionMismatch :=
  C4_dimension_mismatch [1, 2] [1] [1, 2] [1, 2, 3] 1 "invalid"
    (by decide) (by decide)

/-- C6: the signed maximum drawdown `min_t (value_t/running_peak_t - 1)`
is always ≤ 0, and the value exposed in the result record is its
non-negative magnitude, hence ≥ 0 for every return series. -/
theorem C6_max_drawdown_convention (sqrt : ℚ → ℚ) (rpow : ℚ → ℚ → ℚ)
    (riskFree : ℚ) (r : List ℚ) :
    maxDrawdownSigned r ≤ 0 ∧
    (calculate_performance_metrics sqrt rpow riskFree r).max_drawdown =
      |maxDrawdownSigned r| ∧
    0 ≤ (calculate_performance_metrics sqrt rpow riskFree r).max_drawdown := by
  refine ⟨?_, rfl, abs_nonneg _⟩
  unfold maxDrawdownSigned
  obtain ⟨rest, hv⟩ : ∃ rest, portfolioValues r = 1 :: rest := by
    cases r <;> exact ⟨_, rfl⟩
  rw [hv]
  obtain ⟨tl, hp⟩ : ∃ tl, runningPeaks (1 :: rest) = 1 :: tl := by
    cases rest <;> exact ⟨_, rfl⟩
  unfold drawdowns
  rw [hp]
  simp only [List.zipWith_cons_cons]
  have h11 : (1 : ℚ) / 1 - 1 = 0 := by norm_num
  rw [h11]
  exact listMin_cons_le 0 _

/-- C7: for an all-zero return series the analytics engine reports zero
total return, zero annual return and zero max drawdown, and every ratio
metric with a zero-variance (or zero-drawdown) denominator resolves to
the one documented sentinel, never an exception. Stated for any
square-root parameter fixing 0 and any power parameter fixing base 1. -/
theorem C7_all_zero_series (sqrt : ℚ → ℚ) (rpow : ℚ → ℚ → ℚ)
    (riskFree : ℚ) (n : ℕ) (hsqrt : sqrt 0 = 0)
    (hrpow : ∀ e, rpow 1 e = 1) :
    (calculate_performance_metrics sqrt rpow riskFree
        (List.replicate n 0)).total_return = 0 ∧
    (calculate_performance_metrics sqrt rpow riskFree
        (List.replicate n 0)).annual_return = 0 ∧
    (calculate_performance_metrics sqrt rpow riskFree
        (List.replicate n 0)).max_drawdown = 0 ∧
    (calculate_performance_metrics sqrt rpow riskFree
        (List.replicate n 0)).sharpe_ratio = sentinel ∧
    (calculate_performance_metrics sqrt rpow riskFree
        (List.replicate n 0)).sortino_ratio = sentinel ∧
    (calculate_performance_metrics sqrt rpow riskFree
        (List.replicate n 0)).calmar_ratio = sentinel := by
  have htr : total_return (List.replicate n 0) = 0 := by
    simp [total_return, List.map_replicate, List.prod_replicate]
  have hvals : portfolioValues (List.replicate n 0) =
      List.replicate (n + 1) 1 := by
    unfold portfolioValues
    simp only [List.map_replicate, add_zero]
    exact scanl_mul_one_replicate n
  have hpeaks : runningPeaks (List.replicate (n + 1) 1) =
      List.replicate (n + 1) 1 := by
    rw [List.replicate_succ]
    simp only [runningPeaks]
    rw [scanl_max_one_replicate n, ← List.replicate_succ]
  have hdd : maxDrawdownSigned (List.replicate n 0) = 0 := by
    unfold maxDrawdownSigned drawdowns
    rw [hvals, hpeaks]
    have hz : List.zipWith (fun v p => v / p - 1)
        (List.replicate (n + 1) (1 : ℚ)) (List.replicate (n + 1) (1 : ℚ)) =
        List.replicate (n + 1) 0 := by
      rw [List.zipWith_replicate]
      norm_num
    rw [hz, List.replicate_succ]
    simp only [listMin]
    exact foldl_min_zero_replicate n
  have hvar : variance (List.replicate n 0) = 0 := by
    unfold variance mean
    simp [List.map_replicate, List.sum_replicate]
  have hdev : downsideDev sqrt (List.replicate n 0) = 0 := by
    unfold downsideDev
    simp only [List.map_replicate]
    norm_num
    exact hsqrt
  refine ⟨htr, ?_, ?_, ?_, ?_, ?_⟩
  · show annual_return rpow (List.replicate n 0) = 0
    unfold annual_return
    rw [htr, add_zero, hrpow, sub_self]
  · show max_drawdown (List.replicate n 0) = 0
    unfold max_drawdown
    rw [hdd, abs_zero]
  · show sharpePoint sqrt riskFree (List.replicate n 0) = sentinel
    unfold sharpePoint stdev
    rw [hvar, hsqrt, if_pos rfl]
  · show sortino_ratio sqrt riskFree (List.replicate n 0) = sentinel
    unfold sortino_ratio
    rw [if_pos hdev]
  · show calmar_ratio rpow (List.replicate n 0) = sentinel
    unfold calmar_ratio
    rw [if_pos (by unfold max_drawdown; rw [hdd, abs_zero])]

/-- Witness for C7: the sentinel behaviour at the concrete all-zero
series of length 3, with square root instantiated by the identity and
real power by first projection. -/
theorem C7_all_zero_series_witness :
    (calculate_performance_metrics id (fun b _ => b) 0
        (List.replicate 3 0)).total_return = 0 ∧
    (calculate_performance_metrics id (fun b _ => b) 0
        (List.replicate 3 0)).annual_return = 0 ∧
    (calculate_performance_metrics id (fun b _ => b) 0
        (List.replicate 3 0)).max_drawdown = 0 ∧
    (calculate_performance_metrics id (fun b _ => b) 0
        (List.replicate 3 0)).sharpe_ratio = sentinel ∧
    (calculate_performance_metrics id (fun b _ => b) 0
        (List.replicate 3 0)).sortino_ratio = sentinel ∧
    (calculate_performance_metrics id (fun b _ => b) 0
        (List.replicate 3 0)).calmar_ratio = sentinel :=
  C7_all_zero_series id (fun b _ => b) 0 3 rfl (fun _ => rfl)

/-- C2: an order that would breach the cash-buffer constraint while
partial fills are disabled fails with InsufficientFunds, the ledger
(cash and positions) is returned exactly unchanged, and processing
continues with the remaining orders of the run against that unchanged
ledger — the run is not aborted. -/
theorem C2_insufficient_funds_rollback (sqrt : ℚ → ℚ) (cfg : ExecConfig)
    (led : Ledger) (o : Order) (rest : List Order)
    (hpf : cfg.enablePartialFills = false)
    (hbreach : cashAfterTrade sqrt cfg led o <
      cfg.initial_capital * cfg.cash_buffer) :
    execute_order sqrt cfg led o = (led, .error .InsufficientFunds) ∧
    run_orders sqrt cfg led (o :: rest) =
      ((run_orders sqrt cfg led rest).1,
       (run_orders sqrt cfg led rest).2.1,
       .InsufficientFunds :: (run_orders sqrt cfg led rest).2.2) := by
  have h1 : execute_order sqrt cfg led o = (led, .error .InsufficientFunds) := by
    unfold execute_order
    rw [if_neg (not_le.mpr hbreach), hpf]
    simp
  refine ⟨h1, ?_⟩
  simp only [run_orders, h1]

/-- Witness for C2: a buy of 10 shares at price 100 against cash 1000
with a 50% cash buffer on capital 1000 breaches the buffer; the order
is rejected and the ledger survives unchanged. -/
theorem C2_insufficient_funds_rollback_witness :
    execute_order id
      ⟨1000, 1 / 2, false, ⟨.Fixed, 0, []⟩, ⟨.NoImpact, 0⟩⟩
      ⟨1000, []⟩ ⟨"AAPL", 10, 100, 10000, 0⟩ =
      (⟨1000, []⟩, .error .InsufficientFunds) ∧
    run_orders id
      ⟨1000, 1 / 2, false, ⟨.Fixed, 0, []⟩, ⟨.NoImpact, 0⟩⟩
      ⟨1000, []⟩ [⟨"AAPL", 10, 100, 10000, 0⟩] =
      ((run_orders id
          ⟨1000, 1 / 2, false, ⟨.Fixed, 0, []⟩, ⟨.NoImpact, 0⟩⟩
          ⟨1000, []⟩ []).1,
       (run_orders id
          ⟨1000, 1 / 2, false, ⟨.Fixed, 0, []⟩, ⟨.NoImpact, 0⟩⟩
          ⟨1000, []⟩ []).2.1,
       .InsufficientFunds :: (run_orders id
          ⟨1000, 1 / 2, false, ⟨.Fixed, 0, []⟩, ⟨.NoImpact, 0⟩⟩
          ⟨1000, []⟩ []).2.2) :=
  C2_insufficient_funds_rollback id
    ⟨1000, 1 / 2, false, ⟨.Fixed, 0, []⟩, ⟨.NoImpact, 0⟩⟩
    ⟨1000, []⟩ ⟨"AAPL", 10, 100, 10000, 0⟩ [] rfl (by
      show cashAfterTrade id _ _ _ < (1000 : ℚ) * (1 / 2)
      norm_num [cashAfterTrade, execPriceOf, commissionOf, impactFractionOf,
        calculate_impact, impactedPrice, signedImpact, calculate_commission])

/-- C8: market impact is mirror-symmetric (a sell receives the negated
increment of the equal-magnitude buy) and never favours the trader: a
non-negative impact fraction makes the buy execution price at least the
market price and the sell execution price at most the market price, with
strict disadvantage for a positive fraction; the impact fraction of a
buy is strictly positive for the Linear and SquareRoot models on
positive inputs (with the square-root parameter positive on positives). -/
theorem C8_market_impact_disadvantage (sqrt : ℚ → ℚ)
    (cfg : MarketImpactConfig) (ts dv vol price : ℚ) :
    signedImpact (calculate_impact sqrt cfg ts dv vol) false =
      -(signedImpact (calculate_impact sqrt cfg ts dv vol) true) ∧
    (0 ≤ calculate_impact sqrt cfg ts dv vol → 0 ≤ price →
      price ≤ impactedPrice price (calculate_impact sqrt cfg ts dv vol) true ∧
      impactedPrice price (calculate_impact sqrt cfg ts dv vol) false ≤
        price) ∧
    (0 < calculate_impact sqrt cfg ts dv vol → 0 < price →
      price < impactedPrice price (calculate_impact sqrt cfg ts dv vol) true ∧
      impactedPrice price (calculate_impact sqrt cfg ts dv vol) false <
        price) ∧
    (cfg.model = .Linear → 0 < cfg.impact_coefficient → 0 < ts → 0 < dv →
      0 < calculate_impact sqrt cfg ts dv vol) ∧
    (cfg.model = .SquareRoot → 0 < cfg.impact_coefficient → 0 < vol →
      0 < sqrt (ts / dv) → 0 < calculate_impact sqrt cfg ts dv vol) := by
  refine ⟨by simp [signedImpact], ?_, ?_, ?_, ?_⟩
  · intro hf hp
    constructor
    · unfold impactedPrice signedImpact
      simp only [if_true]
      nlinarith
    · unfold impactedPrice signedImpact
      simp only [Bool.false_eq_true, if_false]
      nlinarith
  · intro hf hp
    constructor
    · unfold impactedPrice signedImpact
      simp only [if_true]
      nlinarith
    · unfold impactedPrice signedImpact
      simp only [Bool.false_eq_true, if_false]
      nlinarith
  · intro hm hc hts hdv
    unfold calculate_impact
    rw [hm]
    exact div_pos (mul_pos hc hts) hdv
  · intro hm hc hvol hs
    unfold calculate_impact
    rw [hm]
    exact mul_pos (mul_pos hc hvol) hs

/-- Witness for C8 at the configuration of the test: SquareRoot model with
coefficient 0.1, trade size 1000, daily volume 10000, volatility 0.02,
price 100, square root instantiated by the identity. -/
theorem C8_market_impact_disadvantage_witness :
    signedImpact (calculate_impact id ⟨.SquareRoot, 1 / 10⟩ 1000 10000
        (1 / 50)) false =
      -(signedImpact (calculate_impact id ⟨.SquareRoot, 1 / 10⟩ 1000 10000
        (1 / 50)) true) ∧
    (0 ≤ calculate_impact id ⟨.SquareRoot, 1 / 10⟩ 1000 10000 (1 / 50) →
      0 ≤ (100 : ℚ) →
      (100 : ℚ) ≤ impactedPrice 100 (calculate_impact id
        ⟨.SquareRoot, 1 / 10⟩ 1000 10000 (1 / 50)) true ∧
      impactedPrice 100 (calculate_impact id
        ⟨.SquareRoot, 1 / 10⟩ 1000 10000 (1 / 50)) false ≤ 100) ∧
    (0 < calculate_impact id ⟨.SquareRoot, 1 / 10⟩ 1000 10000 (1 / 50) →
      0 < (100 : ℚ) →
      (100 : ℚ) < impactedPrice 100 (calculate_impact id
        ⟨.SquareRoot, 1 / 10⟩ 1000 10000 (1 / 50)) true ∧
      impactedPrice 100 (calculate_impact id
        ⟨.SquareRoot, 1 / 10⟩ 1000 10000 (1 / 50)) false < 100) ∧
    (MarketImpactConfig.model ⟨.SquareRoot, 1 / 10⟩ = .Linear →
      0 < MarketImpactConfig.impact_coefficient ⟨.SquareRoot, 1 / 10⟩ →
      0 < (1000 : ℚ) → 0 < (10000 : ℚ) →
      0 < calculate_impact id ⟨.SquareRoot, 1 / 10⟩ 1000 10000 (1 / 50)) ∧
    (MarketImpactConfig.model ⟨.SquareRoot, 1 / 10⟩ = .SquareRoot →
      0 < MarketImpactConfig.impact_coefficient ⟨.SquareRoot, 1 / 10⟩ →
      0 < (1 / 50 : ℚ) → 0 < id ((1000 : ℚ) / 10000) →
      0 < calculate_impact id ⟨.SquareRoot, 1 / 10⟩ 1000 10000 (1 / 50)) :=
  C8_market_impact_disadvantage id ⟨.SquareRoot, 1 / 10⟩ 1000 10000
    (1 / 50) 100

/-- C9: TimeSeries construction round-trips — creating a series from
equal-length arrays succeeds, its size is the array length, its name is
the given name, it is non-empty for non-empty input, and to_numpy gives
back exactly the original arrays. -/
theorem C9_timeseries_roundtrip (ts vs : List ℚ) (nm : String)
    (h : ts.length = vs.length) :
    TimeSeries.create ts vs nm = .ok ⟨ts, vs, nm⟩ ∧
    (TimeSeries.mk ts vs nm).size = vs.length ∧
    (TimeSeries.mk ts vs nm).name = nm ∧
    (vs ≠ [] → (TimeSeries.mk ts vs nm).empty = false) ∧
    (TimeSeries.mk ts vs nm).to_numpy = (ts, vs) := by
  refine ⟨?_, rfl, rfl, ?_, rfl⟩
  · simp [TimeSeries.create, h]
  · intro hne
    simp [TimeSeries.empty, hne]

/-- Witness for C9 at a concrete two-sample series. -/
theorem C9_timeseries_roundtrip_witness :
    TimeSeries.create [1, 2] [3, 4] "test_series" =
      .ok ⟨[1, 2], [3, 4], "test_series"⟩ ∧
    (TimeSeries.mk [1, 2] [3, 4] "test_series").size = 2 ∧
    (TimeSeries.mk [1, 2] [3, 4] "test_series").name = "test_series" ∧
    ([3, 4] ≠ ([] : List ℚ) →
      (TimeSeries.mk [1, 2] [3, 4] "test_series").empty = false) ∧
    (TimeSeries.mk [1, 2] [3, 4] "test_series").to_numpy = ([1, 2], [3, 4]) :=
  C9_timeseries_roundtrip [1, 2] [3, 4] "test_series" rfl

/-- C10: in the fallback branch of the package `__init__`, every public
name of the successful-import branch is still bound (import succeeds),
nothing beyond those names is bound, invoking any bound class or
function raises RuntimeError, and every attribute of the stub submodules
is the stub function, whose invocation raises RuntimeError. -/
theorem C10_fallback_stub_exports :
    (∀ n, n ∈ publicNames → ∃ e, fallbackBinding n = some e) ∧
    (∀ n, (fallbackBinding n).isSome → n ∈ publicNames) ∧
    (∀ n e, fallbackBinding n = some e → e ≠ .moduleExport →
      invokeExport e = some (.error stubMessage)) ∧
    (∀ a, exportAttr .moduleExport a = some .fn ∧
      invokeExport .fn = some (.error stubMessage)) := by
  refine ⟨?_, ?_, ?_, fun a => ⟨rfl, rfl⟩⟩
  · intro n hn
    fin_cases hn <;> exact ⟨_, rfl⟩
  · intro n h
    unfold fallbackBinding at h
    split_ifs at h with h1 h2 h3
    · fin_cases h1 <;> decide
    · fin_cases h2 <;> decide
    · fin_cases h3 <;> decide
    · simp at h
  · intro n e he hne
    cases e with
    | cls => rfl
    | fn => rfl
    | moduleExport => exact absurd rfl hne

/-- Witness for C10: the DateTime export is bound and invoking the stub
class raises RuntimeError; attributes of a stub submodule resolve to the
stub function. -/
theorem C10_fallback_stub_exports_witness :
    (∃ e, fallbackBinding "DateTime" = some e) ∧
    invokeExport .cls = some (.error stubMessage) ∧
    exportAttr .moduleExport "calculate_performance_metrics" = some .fn := by
  obtain ⟨h1, _, h3, h4⟩ := C10_fallback_stub_exports
  exact ⟨h1 "DateTime" (by decide),
    h3 "DateTime" .cls (by decide) (by decide),
    (h4 "calculate_performance_metrics").1⟩

/-- C3 counterexample: the non-degenerate all-positive series
[0.01, 0.02] has VaR(r, 0.05) = 0.01 > 0, refuting the claimed bound
`calculate_var(r, 0.05) ≤ 0` for every non-degenerate series. -/
theorem C3_var_nonpositive_counterexample :
    nondegenerate [1 / 100, 1 / 50] = true ∧
    ¬ calculate_var [1 / 100, 1 / 50] (5 / 100) ≤ 0 := by
  have hc1 : (⌈(1 : ℚ) / 10⌉ : ℤ) ≤ 1 := Int.ceil_le.mpr (by norm_num)
  have hc2 : (0 : ℤ) < ⌈(1 : ℚ) / 10⌉ := Int.ceil_pos.mpr (by norm_num)
  have hr : varRank (5 / 100) 2 = 1 := by
    unfold varRank
    norm_num
    omega
  have hlen2 : (([1 / 100, 1 / 50] : List ℚ)).length = 2 := rfl
  have hv : calculate_var [1 / 100, 1 / 50] (5 / 100) = 1 / 100 := by
    unfold calculate_var
    rw [hlen2, hr]
    norm_num [sortedReturns, List.insertionSort, List.orderedInsert,
      List.getD]
  constructor
  · norm_num [nondegenerate]
  · rw [hv]
    norm_num

/-- C3 (amended): for every non-empty return series the Value-at-Risk is
monotone in the confidence level, `calculate_var(r,0.01) ≤
calculate_var(r,0.05)`; the non-positivity `calculate_var(r,0.05) ≤ 0`
holds under the additional condition that at least `⌈0.05·n⌉` of the
returns are ≤ 0. -/
theorem C3_var_monotonicity (r : List ℚ) (h : r ≠ []) :
    calculate_var r (1 / 100) ≤ calculate_var r (5 / 100) ∧
    (varRank (5 / 100) r.length ≤ r.countP (fun a => decide (a ≤ 0)) →
      calculate_var r (5 / 100) ≤ 0) := by
  have hn : 0 < r.length := List.length_pos.mpr h
  have hlen : (sortedReturns r).length = r.length := sortedReturns_length r
  have hs := sortedReturns_sorted r
  have hk5le : varRank (5 / 100) r.length ≤ r.length :=
    varRank_le _ _ (by norm_num)
  have hk5pos : 1 ≤ varRank (5 / 100) r.length :=
    varRank_pos _ _ (by norm_num) hn
  have hk1le5 : varRank (1 / 100) r.length ≤ varRank (5 / 100) r.length :=
    varRank_mono _ _ _ (by norm_num)
  constructor
  · unfold calculate_var
    exact sorted_getD_mono _ hs _ _ (by omega) (by omega)
  · intro hcount
    unfold calculate_var
    refine sorted_getD_nonpos _ hs _ (by omega) ?_
    rw [countP_sortedReturns]
    omega

/-- Witness for C3 at the concrete series [-0.1, 0.2]: both quantiles
pick the smallest return -0.1 and the non-positivity condition holds. -/
theorem C3_var_monotonicity_witness :
    calculate_var [-1 / 10, 1 / 5] (1 / 100) ≤
      calculate_var [-1 / 10, 1 / 5] (5 / 100) ∧
    (varRank (5 / 100) (List.length ([-1 / 10, 1 / 5] : List ℚ)) ≤
        List.countP (fun a => decide (a ≤ 0)) ([-1 / 10, 1 / 5] : List ℚ) →
      calculate_var [-1 / 10, 1 / 5] (5 / 100) ≤ 0) :=
  C3_var_monotonicity [-1 / 10, 1 / 5] (List.cons_ne_nil _ _)

end Pyfolio
